import Mathlib

/-!
Verification development for the WebGL 3D scene-editor core
(repository `trabalho_cg_1`).

The JavaScript source is shallowly embedded here:

* `Vec4`  embeds `src/js/3DStuff/Vec4.js` (the iteration shipped with the
  `3DStuff` components, found in `src/unnamed/part_007`): homogeneous
  4-vectors over the reals with `add`, `subtract`, `scale`, `crossProduct`,
  `length` and the zero-guarded `normalize`.
* `Mat4`  embeds the `Float32Array(16)` column-major matrices built by
  `src/js/3DStuff/GraphicsMath.js`; field `eᵢ` is array slot `i`, so the
  entry in row `r`, column `c` of the mathematical matrix sits in field
  `e(c*4+r)`.  `multiplyMatrices`, `transposeMatrix` and the
  translation / rotation / scale constructors follow the source line by line.
* `Camera` embeds `src/js/3DStuff/Camera.js` (state: location, accumulated
  axis angles, cached rotation matrix).
* the normal-generation pass of `Object3D` (`src/unnamed/part_005`,
  `#calculateNormals`) is embedded as `calculateNormals`.
* the duplicate ledger of `Model3D` (`src/js/3DStuff/Model3D.js`,
  `models_duplicates_mapping`) and the lifecycle methods `duplicateModel`,
  `renameModel`, `deleteModel` are embedded over an insertion-ordered
  association list, with JavaScript's `indexOf` / `splice` / `array[i] = v`
  semantics modelled exactly (including negative indices).
* the frame-pacing computation of `webgl_main.js`'s `renderCallBack`
  (`src/unnamed/part_021`) is embedded as `renderCallBackDelay` over ℚ.

JavaScript numbers are modelled as real numbers (ℚ where the source only
ever does exact arithmetic); the spec itself disclaims floating-point
determinism, so the real-valued model is the intended semantics.
-/

noncomputable section RealModel

/-- Embeds `Vec4` (src/unnamed/part_007, the `3DStuff` iteration):
a homogeneous 4-vector with fields `x y z w`. -/
structure Vec4 where
  x : ℝ
  y : ℝ
  z : ℝ
  w : ℝ

/-- Embeds `Vec4.createZeroPoint()`: the point `(0,0,0,1)`. -/
def Vec4.createZeroPoint : Vec4 := ⟨0, 0, 0, 1⟩

/-- Embeds `Vec4.add(B)`: component-wise sum on `x,y,z`; the summed `w`
is clamped from above to `1` (`result.w = result.w > 1 ? 1 : result.w`). -/
def Vec4.add (a b : Vec4) : Vec4 :=
  let w0 := a.w + b.w
  ⟨a.x + b.x, a.y + b.y, a.z + b.z, if w0 > 1 then 1 else w0⟩

/-- Embeds `Vec4.subtract(B)`: component-wise difference on `x,y,z`;
`w` keeps the receiver's value. -/
def Vec4.subtract (a b : Vec4) : Vec4 :=
  ⟨a.x - b.x, a.y - b.y, a.z - b.z, a.w⟩

/-- Embeds `Vec4.scale(scalar)`: multiplies `x,y,z` by the scalar,
keeps `w`. -/
def Vec4.scale (a : Vec4) (s : ℝ) : Vec4 :=
  ⟨a.x * s, a.y * s, a.z * s, a.w⟩

/-- Embeds `Vec4.crossProduct(B)`: the 3D cross product; the source sets
`result.w = 0` ("Cross product is a vector"). -/
def Vec4.crossProduct (a b : Vec4) : Vec4 :=
  ⟨a.y * b.z - a.z * b.y, a.z * b.x - a.x * b.z, a.x * b.y - a.y * b.x, 0⟩

/-- Embeds `Vec4.length()`: `Math.sqrt(x*x + y*y + z*z)` (the `w`
component does not participate). -/
def Vec4.length (a : Vec4) : ℝ :=
  Real.sqrt (a.x * a.x + a.y * a.y + a.z * a.z)

/-- Embeds `Vec4.normalize()` of src/unnamed/part_007: divides `x,y,z` by
the length only under the guard `if (length > 0)`, otherwise leaves the
zero components of the freshly created result; `w` is set to `0`. -/
def Vec4.normalize (a : Vec4) : Vec4 :=
  let l := a.length
  if l > 0 then ⟨a.x / l, a.y / l, a.z / l, 0⟩ else ⟨0, 0, 0, 0⟩

/-- Embeds the `Float32Array(16)` matrices of
`src/js/3DStuff/GraphicsMath.js`; field `eᵢ` is array slot `i`
(column-major: row `r`, column `c` lives in slot `c*4+r`). -/
@[ext]
structure Mat4 where
  e0 : ℝ
  e1 : ℝ
  e2 : ℝ
  e3 : ℝ
  e4 : ℝ
  e5 : ℝ
  e6 : ℝ
  e7 : ℝ
  e8 : ℝ
  e9 : ℝ
  e10 : ℝ
  e11 : ℝ
  e12 : ℝ
  e13 : ℝ
  e14 : ℝ
  e15 : ℝ

/-- Embeds `GraphicsMath.createIdentityMatrix()`. -/
def createIdentityMatrix : Mat4 :=
  ⟨1, 0, 0, 0,
   0, 1, 0, 0,
   0, 0, 1, 0,
   0, 0, 0, 1⟩

/-- Embeds `GraphicsMath.createTranslationMatrix(x, y, z)` (column-major
literal: the translation sits in slots 12..14). -/
def createTranslationMatrix (x y z : ℝ) : Mat4 :=
  ⟨1, 0, 0, 0,
   0, 1, 0, 0,
   0, 0, 1, 0,
   x, y, z, 1⟩

/-- Embeds `GraphicsMath.createScaleMatrix(x, y, z)`. -/
def createScaleMatrix (x y z : ℝ) : Mat4 :=
  ⟨x, 0, 0, 0,
   0, y, 0, 0,
   0, 0, z, 0,
   0, 0, 0, 1⟩

/-- Embeds `GraphicsMath.transposeMatrix(matrix)`:
`result[i*4+j] = matrix[j*4+i]`. -/
def transposeMatrix (m : Mat4) : Mat4 :=
  ⟨m.e0, m.e4, m.e8, m.e12,
   m.e1, m.e5, m.e9, m.e13,
   m.e2, m.e6, m.e10, m.e14,
   m.e3, m.e7, m.e11, m.e15⟩

/-- Embeds `GraphicsMath.createRotationMatrix(angle, axis)`: builds the
row-major literal for axis `'x'`, `'y'` or `'z'` (identity for any other
axis string) with `c = Math.cos(angle)`, `s = Math.sin(angle)`, then
returns its transpose, exactly as the source does. -/
def createRotationMatrix (angle : ℝ) (axis : String) : Mat4 :=
  let c := Real.cos angle
  let s := Real.sin angle
  let m : Mat4 :=
    if axis = "x" then
      ⟨1, 0, 0, 0,
       0, c, -s, 0,
       0, s, c, 0,
       0, 0, 0, 1⟩
    else if axis = "y" then
      ⟨c, 0, s, 0,
       0, 1, 0, 0,
       -s, 0, c, 0,
       0, 0, 0, 1⟩
    else if axis = "z" then
      ⟨c, -s, 0, 0,
       s, c, 0, 0,
       0, 0, 1, 0,
       0, 0, 0, 1⟩
    else createIdentityMatrix
  transposeMatrix m

/-- Embeds `GraphicsMath.multiplyMatrices(A, B)`:
`result[j*4+i] = Σₖ A[k*4+i] * B[j*4+k]` for `i, j, k < 4`,
written out slot by slot. -/
def multiplyMatrices (A B : Mat4) : Mat4 :=
  ⟨A.e0 * B.e0 + A.e4 * B.e1 + A.e8 * B.e2 + A.e12 * B.e3,
   A.e1 * B.e0 + A.e5 * B.e1 + A.e9 * B.e2 + A.e13 * B.e3,
   A.e2 * B.e0 + A.e6 * B.e1 + A.e10 * B.e2 + A.e14 * B.e3,
   A.e3 * B.e0 + A.e7 * B.e1 + A.e11 * B.e2 + A.e15 * B.e3,
   A.e0 * B.e4 + A.e4 * B.e5 + A.e8 * B.e6 + A.e12 * B.e7,
   A.e1 * B.e4 + A.e5 * B.e5 + A.e9 * B.e6 + A.e13 * B.e7,
   A.e2 * B.e4 + A.e6 * B.e5 + A.e10 * B.e6 + A.e14 * B.e7,
   A.e3 * B.e4 + A.e7 * B.e5 + A.e11 * B.e6 + A.e15 * B.e7,
   A.e0 * B.e8 + A.e4 * B.e9 + A.e8 * B.e10 + A.e12 * B.e11,
   A.e1 * B.e8 + A.e5 * B.e9 + A.e9 * B.e10 + A.e13 * B.e11,
   A.e2 * B.e8 + A.e6 * B.e9 + A.e10 * B.e10 + A.e14 * B.e11,
   A.e3 * B.e8 + A.e7 * B.e9 + A.e11 * B.e10 + A.e15 * B.e11,
   A.e0 * B.e12 + A.e4 * B.e13 + A.e8 * B.e14 + A.e12 * B.e15,
   A.e1 * B.e12 + A.e5 * B.e13 + A.e9 * B.e14 + A.e13 * B.e15,
   A.e2 * B.e12 + A.e6 * B.e13 + A.e10 * B.e14 + A.e14 * B.e15,
   A.e3 * B.e12 + A.e7 * B.e13 + A.e11 * B.e14 + A.e15 * B.e15⟩

/-- Embeds the state of `Camera` (src/js/3DStuff/Camera.js): world
location, the two accumulated axis angles, and the cached rotation
matrix. -/
structure Camera where
  location : Vec4
  angle_x : ℝ
  angle_y : ℝ
  camera_rotation_matrix : Mat4

/-- Embeds the `Camera` constructor: given a starting location, both
angles are `0` and the cached rotation matrix is the identity. -/
def Camera.init (loc : Vec4) : Camera :=
  ⟨loc, 0, 0, createIdentityMatrix⟩

/-- Embeds `Camera.transformMovement(input, yawRad, pitchRad)`: builds the
forward and right vectors from the angles and combines the camera-local
input into a world-space vector with `w = 1`. -/
def Camera.transformMovement (input : Vec4) (yawRad pitchRad : ℝ) : Vec4 :=
  let forwardX := Real.cos pitchRad * Real.sin yawRad
  let forwardY := Real.sin pitchRad
  let forwardZ := Real.cos pitchRad * Real.cos yawRad
  let rightX := Real.cos yawRad
  let rightZ := -Real.sin yawRad
  ⟨input.x * rightX + input.z * forwardX,
   input.z * forwardY,
   input.x * rightZ + input.z * forwardZ,
   1⟩

/-- Embeds `Camera.move(direction, speed)`: transforms the local direction
with yaw `-angle_y` and pitch `angle_x`, adds `direction.y` to the result's
`y` ("dpad adjustment"), scales by `speed` and adds to the location. -/
def Camera.move (c : Camera) (direction : Vec4) (speed : ℝ) : Camera :=
  let mv := Camera.transformMovement direction (-c.angle_y) c.angle_x
  let mv' : Vec4 := ⟨mv.x, mv.y + direction.y, mv.z, mv.w⟩
  { c with location := c.location.add (mv'.scale speed) }

/-- Embeds `Camera.rotate(angle, axis)`: accumulates the delta into the
matching axis angle (axes other than `'x'`/`'y'` leave the angles alone)
and always recomputes the cached matrix as `Rx(angle_x) · Ry(angle_y)`. -/
def Camera.rotate (c : Camera) (angle : ℝ) (axis : String) : Camera :=
  let ax := if axis = "x" then c.angle_x + angle else c.angle_x
  let ay := if axis = "y" then c.angle_y + angle else c.angle_y
  { c with
      angle_x := ax
      angle_y := ay
      camera_rotation_matrix :=
        multiplyMatrices (createRotationMatrix ax "x")
          (createRotationMatrix ay "y") }

/-- Embeds `Camera.getCameraMatrix()`: the cached rotation matrix times the
translation by the negated location. -/
def Camera.getCameraMatrix (c : Camera) : Mat4 :=
  multiplyMatrices c.camera_rotation_matrix
    (createTranslationMatrix (-c.location.x) (-c.location.y) (-c.location.z))

/-- The camera states reachable through the public interface of
`src/js/3DStuff/Camera.js`: construction, `move` and `rotate`. -/
inductive Camera.Reach : Camera → Prop
  | init (loc : Vec4) : Camera.Reach (Camera.init loc)
  | move (c : Camera) (d : Vec4) (s : ℝ) :
      Camera.Reach c → Camera.Reach (c.move d s)
  | rotate (c : Camera) (a : ℝ) (ax : String) :
      Camera.Reach c → Camera.Reach (c.rotate a ax)

/-- A component of a JavaScript `{x, y, z}` record. -/
structure V3 where
  x : ℝ
  y : ℝ
  z : ℝ

/-- Embeds the `transformation_dict` of `Model3D`
(src/js/3DStuff/Model3D.js): translation, per-axis rotation and scale. -/
structure TransformDict where
  translation : V3
  rotation : V3
  scale : V3

/-- The transform-related state of a `Model3D`: the dictionary and the
cached transformation matrix. -/
structure Model3DTransform where
  transformation_dict : TransformDict
  transformation_matrix : Mat4

/-- Embeds `Model3D.setTransformation(dictionary)`
(src/js/3DStuff/Model3D.js lines 247–267): builds `T`, `Rx`, `Ry`, `Rz`,
`S`, combines them as `t_m · ((r_x · r_y) · r_z) · s_m` exactly as the
source does, and caches both the matrix and the dictionary. -/
def setTransformation (_m : Model3DTransform) (d : TransformDict) :
    Model3DTransform :=
  let t_m := createTranslationMatrix d.translation.x d.translation.y d.translation.z
  let r_x_m := createRotationMatrix d.rotation.x "x"
  let r_y_m := createRotationMatrix d.rotation.y "y"
  let r_z_m := createRotationMatrix d.rotation.z "z"
  let r_xy_m := multiplyMatrices r_x_m r_y_m
  let r_xyz_m := multiplyMatrices r_xy_m r_z_m
  let s_m := createScaleMatrix d.scale.x d.scale.y d.scale.z
  let s_r := multiplyMatrices r_xyz_m s_m
  let s_r_p := multiplyMatrices t_m s_r
  { transformation_dict := d, transformation_matrix := s_r_p }

/-- Embeds `Model3D.getTransformationMatrix()`: returns the cached
matrix. -/
def getTransformationMatrix (m : Model3DTransform) : Mat4 :=
  m.transformation_matrix

end RealModel

/-- Embeds `const FPS = 60` of src/unnamed/part_021 (webgl_main.js). -/
def FPS : ℚ := 60

/-- Embeds `const FPS_LIMIT = 1000 / FPS`: the frame budget in
milliseconds at the 60 Hz target. -/
def FPS_LIMIT : ℚ := 1000 / FPS

/-- Embeds the frame-pacing tail of `renderCallBack`
(src/unnamed/part_021 lines 298–315): with `diff = FPS_LIMIT - elapsed`,
the next tick is scheduled after `diff` milliseconds when `diff > 0`
(`setTimeout(callback, diff)`) and immediately — delay `0` — otherwise
(`callback()`). -/
def renderCallBackDelay (elapsed : ℚ) : ℚ :=
  let diff := FPS_LIMIT - elapsed
  if diff > 0 then diff else 0

/-- Embeds the static `models_duplicates_mapping` of `Model3D`
(src/js/3DStuff/Model3D.js): a JavaScript object mapping a model path to
the array of model names registered for it.  String keys such as paths
are iterated in insertion order, so the object is modelled as an
insertion-ordered association list. -/
abbrev Ledger := List (String × List String)

/-- Key lookup in the mapping (`mapping[path]`); returns the first
binding.  Reachable ledgers never bind the same key twice. -/
def lookupLedger : Ledger → String → Option (List String)
  | [], _ => none
  | (k, ns) :: rest, p => if k = p then some ns else lookupLedger rest p

/-- Embeds `Model3D.checkIfModelHasDuplicates(model_path)`:
`model_path in models_duplicates_mapping`. -/
def checkIfModelHasDuplicates (L : Ledger) (p : String) : Bool :=
  (lookupLedger L p).isSome

/-- Key update in the mapping (`mapping[path] = value` on an existing key,
or a mutation of the array stored there): rebinds every occurrence of the
key, which on the duplicate-free reachable ledgers is the single one. -/
def setLedger : Ledger → String → List String → Ledger
  | [], _, _ => []
  | (k, ns) :: rest, p, new =>
      if k = p then (k, new) :: setLedger rest p new
      else (k, ns) :: setLedger rest p new

/-- Embeds `delete mapping[path]`: drops every binding of the key. -/
def removeLedgerKey (L : Ledger) (p : String) : Ledger :=
  L.filter (fun e => !(e.1 = p : Bool))

/-- JavaScript `array.indexOf(x)`: index of the first occurrence, `-1`
when absent. -/
def jsIndexOf : List String → String → Int
  | [], _ => -1
  | a :: rest, x =>
      if a = x then 0
      else
        let r := jsIndexOf rest x
        if r = -1 then -1 else r + 1

/-- JavaScript `array.splice(i, 1)`: a negative start counts from the end
(clamped below at `0`), a start at or past the end deletes nothing. -/
def jsSpliceOne (l : List α) (i : Int) : List α :=
  let start : ℕ := if i < 0 then ((l.length : Int) + i).toNat else i.toNat
  l.take start ++ l.drop (start + 1)

/-- JavaScript `array[i] = x` for the indices `renameModel` can produce:
an in-range index replaces the element; index `-1` creates a non-index
property that `indexOf`, `includes`, `splice`, `length` and iteration all
ignore, so on this view of the array it changes nothing. -/
def jsSetAt (l : List String) (i : Int) (x : String) : List String :=
  if 0 ≤ i ∧ i < (l.length : Int) then l.set i.toNat x else l

/-- The slice of a `Model3D` instance that the lifecycle methods touch:
its display name, its source path, and the `Object3D` references it holds
(modelled as opaque numeric handles whose `deleteObject` calls we log). -/
structure MModel where
  name : String
  path : String
  objects : List ℕ

/-- Embeds `Model3D.duplicateModel()` (src/js/3DStuff/Model3D.js lines
504–524): the new model gets the same name, the same path, and the very
same `Object3D` references; the mapping gains a key for the path if it
had none, then the source model's name if not already present, then —
unconditionally — the new model's name (which equals the source's name in
the source code, since the constructor is called with `this.#name`).
Returns the new model and the updated mapping. -/
def duplicateModel (m : MModel) (L : Ledger) : MModel × Ledger :=
  let L1 := if checkIfModelHasDuplicates L m.path then L else L ++ [(m.path, [])]
  let ns := (lookupLedger L1 m.path).getD []
  let ns1 := if m.name ∈ ns then ns else ns ++ [m.name]
  let ns2 := ns1 ++ [m.name]
  (⟨m.name, m.path, m.objects⟩, setLedger L1 m.path ns2)

/-- Embeds `Model3D.renameModel(new_name)` (src/js/3DStuff/Model3D.js
lines 442–454): when the path has a mapping entry, the slot at
`indexOf(old name)` is overwritten with the new name; then the model's
own name field is updated. -/
def renameModel (m : MModel) (L : Ledger) (new_name : String) :
    MModel × Ledger :=
  let L' :=
    if checkIfModelHasDuplicates L m.path then
      let ns := (lookupLedger L m.path).getD []
      setLedger L m.path (jsSetAt ns (jsIndexOf ns m.name) new_name)
    else L
  ({ m with name := new_name }, L')

/-- Embeds `Model3D.deleteModel(gl)` (src/js/3DStuff/Model3D.js lines
462–492).  `deleted` logs, in call order, the objects on which
`deleteObject` (hence `gl.deleteVertexArray`) has been invoked.  When the
path has a mapping entry, the model's name is spliced out at
`indexOf(name)`; if names remain the method returns with the objects
intact, otherwise the key is deleted and every held object is deleted and
the objects array emptied.  Without a mapping entry the objects are
deleted and emptied directly. -/
def deleteModel (m : MModel) (L : Ledger) (deleted : List ℕ) :
    MModel × Ledger × List ℕ :=
  if checkIfModelHasDuplicates L m.path then
    let ns := (lookupLedger L m.path).getD []
    let ns' := jsSpliceOne ns (jsIndexOf ns m.name)
    if ns'.length > 0 then
      (m, setLedger L m.path ns', deleted)
    else
      ({ m with objects := [] }, removeLedgerKey L m.path, deleted ++ m.objects)
  else
    ({ m with objects := [] }, L, deleted ++ m.objects)

/-- The three operations through which the source ever mutates
`models_duplicates_mapping`. -/
inductive LedgerOp where
  | dup (path name : String)
  | ren (path oldName newName : String)
  | del (path name : String)
deriving DecidableEq

/-- The effect of one lifecycle call on the shared mapping (the model's
object list is irrelevant to the mapping). -/
def ledgerStep (L : Ledger) : LedgerOp → Ledger
  | .dup p n => (duplicateModel ⟨n, p, []⟩ L).2
  | .ren p o n => (renameModel ⟨o, p, []⟩ L n).2
  | .del p n => (deleteModel ⟨n, p, []⟩ L []).2.1

/-- The mapping produced by a sequence of lifecycle calls, starting from
the empty object `{}` the static field is initialised with. -/
def applyLedgerOps (ops : List LedgerOp) : Ledger :=
  ops.foldl ledgerStep []

/-- The ledger invariant of interest: every key that is present is bound
to a nonempty name list. -/
def LedgerNonempty (L : Ledger) : Prop :=
  ∀ p ns, lookupLedger L p = some ns → ns ≠ []

noncomputable section NormalsModel

/-- Embeds `GraphicsMath.calculateNormal(v1, v2, v3)`
(src/js/3DStuff/GraphicsMath.js lines 37–48): wraps the three position
triples as `w = 0` vectors, forms the edges `v2 - v1` and `v3 - v1`,
and returns the normalized cross product as a triple. -/
def calculateNormal (v1 v2 v3 : ℝ × ℝ × ℝ) : ℝ × ℝ × ℝ :=
  let a : Vec4 := ⟨v1.1, v1.2.1, v1.2.2, 0⟩
  let b : Vec4 := ⟨v2.1, v2.2.1, v2.2.2, 0⟩
  let c : Vec4 := ⟨v3.1, v3.2.1, v3.2.2, 0⟩
  let e1 := b.subtract a
  let e2 := c.subtract a
  let n := (e1.crossProduct e2).normalize
  (n.x, n.y, n.z)

/-- The triangles read by the loop `for (i = 0; i < positions.length;
i += 9)` of `Object3D.#calculateNormals` (src/unnamed/part_005): each
complete group of 9 numbers yields the base index `i` and the three
position triples.  (On the well-formed inputs the loop is given — flat
triangle streams — the length is a multiple of 9, so there is no partial
trailing group.) -/
def trianglesOf : List ℝ → ℕ → List (ℕ × (ℝ × ℝ × ℝ) × (ℝ × ℝ × ℝ) × (ℝ × ℝ × ℝ))
  | p0 :: p1 :: p2 :: p3 :: p4 :: p5 :: p6 :: p7 :: p8 :: rest, i =>
      (i, (p0, p1, p2), (p3, p4, p5), (p6, p7, p8)) :: trianglesOf rest (i + 9)
  | _, _ => []

/-- An entry of the `vertexes_mapping` object of `#calculateNormals`:
the key (the exact position triple — the source keys on
`v.join(',')`, which on number triples is the same identification),
the accumulated normal, and the base indices registered for the key. -/
abbrev VertexEntry := (ℝ × ℝ × ℝ) × Vec4 × List ℕ

open Classical in
/-- One `vertexes_mapping[id]` update of `#calculateNormals`: an existing
key accumulates the face normal with `Vec4.add` and appends the index;
a new key is inserted (at the end — object insertion order) with the face
normal and the singleton index list. -/
def addVertexEntry : List VertexEntry → (ℝ × ℝ × ℝ) → Vec4 → ℕ → List VertexEntry
  | [], id, n, k => [(id, n, [k])]
  | (key, acc, idxs) :: rest, id, n, k =>
      if id = key then (key, acc.add n, idxs ++ [k]) :: rest
      else (key, acc, idxs) :: addVertexEntry rest id n k

/-- One iteration of the triangle loop of `#calculateNormals`: computes
the face normal, wraps it as a `w = 0` vector, and registers it for the
three vertices at base indices `i`, `i+3`, `i+6`. -/
def processTriangle (m : List VertexEntry)
    (t : ℕ × (ℝ × ℝ × ℝ) × (ℝ × ℝ × ℝ) × (ℝ × ℝ × ℝ)) : List VertexEntry :=
  let i := t.1
  let v1 := t.2.1
  let v2 := t.2.2.1
  let v3 := t.2.2.2
  let n := calculateNormal v1 v2 v3
  let nv : Vec4 := ⟨n.1, n.2.1, n.2.2, 0⟩
  addVertexEntry (addVertexEntry (addVertexEntry m v1 nv i) v2 nv (i + 3)) v3 nv (i + 6)

/-- The `vertexes_mapping` built by the first pass of
`#calculateNormals`. -/
def buildMapping (ts : List (ℕ × (ℝ × ℝ × ℝ) × (ℝ × ℝ × ℝ) × (ℝ × ℝ × ℝ))) :
    List VertexEntry :=
  ts.foldl processTriangle []

/-- The write-back of one mapping entry: the normalized accumulated
normal is written at slots `i`, `i+1`, `i+2` for every registered base
index `i`. -/
def writeIndexes (normals : List ℝ) (n : Vec4) (idxs : List ℕ) : List ℝ :=
  idxs.foldl (fun ns i => ((ns.set i n.x).set (i + 1) n.y).set (i + 2) n.z) normals

/-- The second pass of `#calculateNormals`: every mapping entry, in
insertion order, normalizes its accumulated normal and writes it back. -/
def writeNormals (normals : List ℝ) (m : List VertexEntry) : List ℝ :=
  m.foldl (fun ns e => writeIndexes ns e.2.1.normalize e.2.2) normals

/-- Embeds `Object3D.#calculateNormals(positions)` (src/unnamed/part_005
lines 222–263): a zero-filled array of the positions' length, the
position-keyed accumulation pass, then the normalize-and-write pass. -/
def calculateNormals (positions : List ℝ) : List ℝ :=
  writeNormals (List.replicate positions.length 0) (buildMapping (trianglesOf positions 0))

end NormalsModel

/-- Matrix multiplication as written in `multiplyMatrices` is associative
(each of the 16 slots is a polynomial identity). -/
theorem multiplyMatrices_assoc (A B C : Mat4) :
    multiplyMatrices (multiplyMatrices A B) C
      = multiplyMatrices A (multiplyMatrices B C) := by
  ext <;> simp only [multiplyMatrices] <;> ring

/-- C9: `Vec4.normalize` applied to a vector with `x = y = z = 0` returns
a zero-length result — all of `x`, `y`, `z` are `0` (and `w` is `0`) —
via the `if (length > 0)` guard, so no division by zero is performed and
nothing is thrown. -/
theorem normalize_zero_vector :
    ∀ w : ℝ, Vec4.normalize ⟨0, 0, 0, w⟩ = ⟨0, 0, 0, 0⟩ ∧
      (Vec4.normalize ⟨0, 0, 0, w⟩).length = 0 := by
  intro w
  have h : Vec4.normalize ⟨0, 0, 0, w⟩ = ⟨0, 0, 0, 0⟩ := by
    simp [Vec4.normalize, Vec4.length]
  exact ⟨h, by rw [h]; simp [Vec4.length]⟩

/-- C10: `Vec4.add` sums the `x`, `y`, `z` components and clamps the
summed `w` from above to `1`; hence two points (`w = 1`) sum to a point
(`w = 1`), and `Camera.move` — which adds a `w = 1` movement vector to
the location — keeps the camera's location a point. -/
theorem vec4_add_clamps_w :
    (∀ a b : Vec4, Vec4.add a b =
      ⟨a.x + b.x, a.y + b.y, a.z + b.z,
       if a.w + b.w > 1 then 1 else a.w + b.w⟩) ∧
    (∀ a b : Vec4, a.w = 1 → b.w = 1 → (Vec4.add a b).w = 1) ∧
    (∀ (c : Camera) (d : Vec4) (s : ℝ),
      c.location.w = 1 → ((c.move d s).location).w = 1) := by
  refine ⟨fun a b => rfl, ?_, ?_⟩
  · intro a b ha hb
    simp [Vec4.add, ha, hb]
  · intro c d s hw
    simp [Camera.move, Camera.transformMovement, Vec4.scale, Vec4.add, hw]

/-- Witness for `vec4_add_clamps_w`: the point-sum and camera parts at
concrete inputs, hypotheses discharged by `rfl`. -/
theorem vec4_add_clamps_w_witness :
    ((⟨2, 3, 4, 1⟩ : Vec4).w = 1) ∧
    ((Vec4.add ⟨2, 3, 4, 1⟩ ⟨5, 6, 7, 1⟩).w = 1) ∧
    ((Camera.init ⟨0, 0, -10, 1⟩).location.w = 1) ∧
    (((Camera.init ⟨0, 0, -10, 1⟩).move ⟨0, 0, 1, 1⟩ 1).location.w = 1) :=
  ⟨rfl, vec4_add_clamps_w.2.1 ⟨2, 3, 4, 1⟩ ⟨5, 6, 7, 1⟩ rfl rfl, rfl,
    vec4_add_clamps_w.2.2 (Camera.init ⟨0, 0, -10, 1⟩) ⟨0, 0, 1, 1⟩ 1 rfl⟩

/-- C6: a camera constructed at `(0,0,-10)` (zero accumulated yaw and
pitch) moved along the camera-local direction `(0,0,1)` with amount `1`
ends at world position `(0,0,-9)`: with zero rotation the local forward
vector maps to world `+z` and the move delta is the direction scaled by
the amount. -/
theorem camera_move_local_forward :
    ((Camera.init ⟨0, 0, -10, 1⟩).move ⟨0, 0, 1, 1⟩ 1).location
      = ⟨0, 0, -9, 1⟩ := by
  simp [Camera.init, Camera.move, Camera.transformMovement, Vec4.add, Vec4.scale]
  norm_num

/-- C8: the scheduler tail of `renderCallBack` waits `FPS_LIMIT - e`
milliseconds when the measured elapsed time `e` is below the 60 Hz
budget `FPS_LIMIT = 1000/60`, and reschedules with zero delay when
`e ≥ FPS_LIMIT`; concretely a 5 ms tick waits `35/3 ≈ 11.67` ms and a
30 ms tick is rescheduled immediately. -/
theorem frame_pacing_delay :
    (∀ e : ℚ, e < FPS_LIMIT → renderCallBackDelay e = FPS_LIMIT - e) ∧
    (∀ e : ℚ, FPS_LIMIT ≤ e → renderCallBackDelay e = 0) ∧
    renderCallBackDelay 5 = 35 / 3 ∧
    renderCallBackDelay 30 = 0 := by
  refine ⟨?_, ?_, ?_, ?_⟩
  · intro e he
    simp only [renderCallBackDelay]
    rw [if_pos (by linarith)]
  · intro e he
    simp only [renderCallBackDelay]
    rw [if_neg (by simp; linarith)]
  · norm_num [renderCallBackDelay, FPS_LIMIT, FPS]
  · norm_num [renderCallBackDelay, FPS_LIMIT, FPS]

/-- Witness for `frame_pacing_delay`: the under-budget branch at a 5 ms
tick and the over-budget branch at a 30 ms tick. -/
theorem frame_pacing_delay_witness :
    ((5 : ℚ) < FPS_LIMIT ∧ renderCallBackDelay 5 = FPS_LIMIT - 5) ∧
    (FPS_LIMIT ≤ (30 : ℚ) ∧ renderCallBackDelay 30 = 0) :=
  ⟨⟨by norm_num [FPS_LIMIT, FPS], frame_pacing_delay.1 5 (by norm_num [FPS_LIMIT, FPS])⟩,
   ⟨by norm_num [FPS_LIMIT, FPS], frame_pacing_delay.2.1 30 (by norm_num [FPS_LIMIT, FPS])⟩⟩

/-- C4: `setTransformation` caches exactly the fixed composition
`T · Rx · Ry · Rz · S` of the independently constructed translation,
per-axis rotation and scale matrices (translation outermost, scale
innermost; the source's grouping `T·((Rx·Ry)·Rz·S)` agrees by
associativity), and `getTransformationMatrix` returns that cached
matrix. -/
theorem setTransformation_fixed_composition :
    ∀ (m : Model3DTransform) (d : TransformDict),
      (setTransformation m d).transformation_matrix =
        multiplyMatrices
          (multiplyMatrices
            (multiplyMatrices
              (multiplyMatrices
                (createTranslationMatrix d.translation.x d.translation.y d.translation.z)
                (createRotationMatrix d.rotation.x "x"))
              (createRotationMatrix d.rotation.y "y"))
            (createRotationMatrix d.rotation.z "z"))
          (createScaleMatrix d.scale.x d.scale.y d.scale.z) ∧
      getTransformationMatrix (setTransformation m d) =
        (setTransformation m d).transformation_matrix := by
  intro m d
  refine ⟨?_, rfl⟩
  simp only [setTransformation, multiplyMatrices_assoc]

/-- In every reachable camera state the cached rotation matrix is
`Rx(angle_x) · Ry(angle_y)`: the constructor establishes it (identity at
zero angles) and `rotate` re-establishes it on every call. -/
theorem camera_rotation_matrix_invariant (c : Camera) (h : Camera.Reach c) :
    c.camera_rotation_matrix =
      multiplyMatrices (createRotationMatrix c.angle_x "x")
        (createRotationMatrix c.angle_y "y") := by
  induction h with
  | init loc =>
      ext <;>
        simp [Camera.init, createRotationMatrix, transposeMatrix,
          createIdentityMatrix, multiplyMatrices]
  | move c d s hc ih =>
      simpa [Camera.move] using ih
  | rotate c a ax hc ih =>
      simp [Camera.rotate]

/-- C7: in every reachable camera state `getCameraMatrix` returns
`Rotation · Translate(-position)`, with `Rotation` the fixed-order
product `Rx(angle_x) · Ry(angle_y)` of the accumulated per-axis angle
rotations. -/
theorem view_matrix_rotation_times_translation (c : Camera)
    (h : Camera.Reach c) :
    c.getCameraMatrix =
      multiplyMatrices
        (multiplyMatrices (createRotationMatrix c.angle_x "x")
          (createRotationMatrix c.angle_y "y"))
        (createTranslationMatrix (-c.location.x) (-c.location.y)
          (-c.location.z)) := by
  rw [Camera.getCameraMatrix, camera_rotation_matrix_invariant c h]

/-- Witness for `view_matrix_rotation_times_translation`: the camera
constructed at `(1,2,3)` and rotated by `1` radian about `x` is
reachable, and its view matrix has the claimed shape. -/
theorem view_matrix_rotation_times_translation_witness :
    Camera.Reach ((Camera.init ⟨1, 2, 3, 1⟩).rotate 1 "x") ∧
    ((Camera.init ⟨1, 2, 3, 1⟩).rotate 1 "x").getCameraMatrix =
      multiplyMatrices
        (multiplyMatrices
          (createRotationMatrix ((Camera.init ⟨1, 2, 3, 1⟩).rotate 1 "x").angle_x "x")
          (createRotationMatrix ((Camera.init ⟨1, 2, 3, 1⟩).rotate 1 "x").angle_y "y"))
        (createTranslationMatrix
          (-((Camera.init ⟨1, 2, 3, 1⟩).rotate 1 "x").location.x)
          (-((Camera.init ⟨1, 2, 3, 1⟩).rotate 1 "x").location.y)
          (-((Camera.init ⟨1, 2, 3, 1⟩).rotate 1 "x").location.z)) :=
  ⟨Camera.Reach.rotate _ 1 "x" (Camera.Reach.init _),
   view_matrix_rotation_times_translation _
     (Camera.Reach.rotate _ 1 "x" (Camera.Reach.init _))⟩

/-- C1: duplicating a (previously untracked) model and then disposing the
original followed by the duplicate releases the shared `Object3D`s
exactly at the second dispose: the duplicate holds the very same object
references; the first dispose deletes nothing and leaves the ledger entry
(with the duplicate's registration) in place; the second dispose removes
the ledger entry (the ledger reaches empty) and deletes every referenced
object exactly once. -/
theorem duplicate_then_dispose_both_releases_once
    (n p : String) (os : List ℕ) (h : os.Nodup) :
    let dup : MModel × Ledger := duplicateModel ⟨n, p, os⟩ []
    let d1 := deleteModel ⟨n, p, os⟩ dup.2 []
    let d2 := deleteModel dup.1 d1.2.1 d1.2.2
    dup.1.objects = os ∧
    d1.2.2 = [] ∧
    d1.2.1 = [(p, [n])] ∧
    d2.2.1 = [] ∧
    d2.2.2 = os ∧
    (∀ o ∈ os, d2.2.2.count o = 1) := by
  refine ⟨rfl, ?_, ?_, ?_, ?_, ?_⟩ <;>
    simp [duplicateModel, deleteModel, checkIfModelHasDuplicates,
      lookupLedger, setLedger, removeLedgerKey, jsIndexOf, jsSpliceOne]
  exact fun o ho => List.count_eq_one_of_mem h ho

/-- Witness for `duplicate_then_dispose_both_releases_once`: the model
`"m"` with source `"cube.obj"` holding objects `[0, 1]`. -/
theorem duplicate_then_dispose_both_releases_once_witness :
    ([0, 1] : List ℕ).Nodup ∧
    ((deleteModel (duplicateModel ⟨"m", "cube.obj", [0, 1]⟩ []).1
        (deleteModel ⟨"m", "cube.obj", [0, 1]⟩
          (duplicateModel ⟨"m", "cube.obj", [0, 1]⟩ []).2 []).2.1
        (deleteModel ⟨"m", "cube.obj", [0, 1]⟩
          (duplicateModel ⟨"m", "cube.obj", [0, 1]⟩ []).2 []).2.2).2.1 = [] ∧
     (deleteModel (duplicateModel ⟨"m", "cube.obj", [0, 1]⟩ []).1
        (deleteModel ⟨"m", "cube.obj", [0, 1]⟩
          (duplicateModel ⟨"m", "cube.obj", [0, 1]⟩ []).2 []).2.1
        (deleteModel ⟨"m", "cube.obj", [0, 1]⟩
          (duplicateModel ⟨"m", "cube.obj", [0, 1]⟩ []).2 []).2.2).2.2 = [0, 1]) :=
  ⟨by decide,
   ⟨(duplicate_then_dispose_both_releases_once "m" "cube.obj" [0, 1] (by decide)).2.2.2.1,
    (duplicate_then_dispose_both_releases_once "m" "cube.obj" [0, 1] (by decide)).2.2.2.2.1⟩⟩

/-- C2 counterexample: the claim "a second dispose is a no-op and leaves
the ledger's entries for other still-live instances unchanged" fails.
Concrete input: model `"A"` with source `"p"` and one object `0` is
duplicated, the duplicate is renamed to `"B"` (as the model selector
does), and the original is disposed twice.  The first dispose correctly
leaves `["B"]` registered and deletes nothing; the second dispose —
`indexOf` returns `-1` and `splice(-1, 1)` removes the LAST entry —
deletes the still-live instance `"B"`'s registration, removes the ledger
entry and deletes the shared object `0`. -/
theorem double_dispose_not_noop_cex :
    let M : MModel := ⟨"A", "p", [0]⟩
    let s1 := duplicateModel M []
    let r := renameModel s1.1 s1.2 "B"
    let d1 := deleteModel M r.2 []
    let d2 := deleteModel M d1.2.1 d1.2.2
    d1.2.1 = [("p", ["B"])] ∧ d1.2.2 = [] ∧
    d2.2.1 = [] ∧ d2.2.2 = [0] ∧
    ¬(d2.2.1 = d1.2.1 ∧ d2.2.2 = d1.2.2) := by
  decide

/-- C2 amended: a second dispose is a no-op — nothing thrown, no
vertex-array object deleted again, the ledger untouched — for every
instance whose source path has no ledger entry (in particular every
instance that was never duplicated): the first dispose empties the
objects array and leaves the ledger alone, and the second dispose then
deletes nothing further and changes nothing. -/
theorem double_dispose_noop_when_untracked
    (n p : String) (os : List ℕ) (L0 : Ledger) (d0 : List ℕ)
    (h : lookupLedger L0 p = none) :
    let d1 := deleteModel ⟨n, p, os⟩ L0 d0
    let d2 := deleteModel d1.1 d1.2.1 d1.2.2
    d1.1.objects = [] ∧ d1.2.1 = L0 ∧ d1.2.2 = d0 ++ os ∧
    d2.1 = d1.1 ∧ d2.2.1 = d1.2.1 ∧ d2.2.2 = d1.2.2 := by
  simp [deleteModel, checkIfModelHasDuplicates, h]

/-- Lookup after rebinding the same key: the new value when the key was
present, still absent otherwise. -/
theorem lookupLedger_setLedger_self (L : Ledger) (p : String) (ns : List String) :
    lookupLedger (setLedger L p ns) p = (lookupLedger L p).map (fun _ => ns) := by
  induction L with
  | nil => rfl
  | cons e rest ih =>
      obtain ⟨k, ms⟩ := e
      by_cases hk : k = p <;> simp [setLedger, lookupLedger, hk, ih]

/-- Rebinding one key leaves lookups of other keys unchanged. -/
theorem lookupLedger_setLedger_other (L : Ledger) (p q : String)
    (ns : List String) (h : q ≠ p) :
    lookupLedger (setLedger L p ns) q = lookupLedger L q := by
  induction L with
  | nil => rfl
  | cons e rest ih =>
      obtain ⟨k, ms⟩ := e
      by_cases hk : k = p
      · subst hk
        simp [setLedger, lookupLedger, Ne.symm h, ih]
      · by_cases hq : k = q <;> simp [setLedger, lookupLedger, hk, hq, h, ih]

/-- Deleting a key makes its lookup `none`. -/
theorem lookupLedger_removeLedgerKey_self (L : Ledger) (p : String) :
    lookupLedger (removeLedgerKey L p) p = none := by
  induction L with
  | nil => rfl
  | cons e rest ih =>
      obtain ⟨k, ms⟩ := e
      by_cases hk : k = p
      · simpa [removeLedgerKey, hk] using ih
      · simpa [removeLedgerKey, lookupLedger, hk] using ih

/-- Deleting one key leaves lookups of other keys unchanged. -/
theorem lookupLedger_removeLedgerKey_other (L : Ledger) (p q : String)
    (h : q ≠ p) :
    lookupLedger (removeLedgerKey L p) q = lookupLedger L q := by
  induction L with
  | nil => rfl
  | cons e rest ih =>
      obtain ⟨k, ms⟩ := e
      by_cases hk : k = p
      · subst hk
        simpa [removeLedgerKey, lookupLedger, Ne.symm h] using ih
      · by_cases hq : k = q
        · subst hq
          simp [removeLedgerKey, lookupLedger, hk, h]
        · simpa [removeLedgerKey, lookupLedger, hk, hq] using ih

/-- Appending a fresh binding at the end makes it found iff the key was
absent before. -/
theorem lookupLedger_append_self (L : Ledger) (p : String) (ns : List String)
    (h : lookupLedger L p = none) :
    lookupLedger (L ++ [(p, ns)]) p = some ns := by
  induction L with
  | nil => simp [lookupLedger]
  | cons e rest ih =>
      obtain ⟨k, ms⟩ := e
      by_cases hk : k = p
      · simp [lookupLedger, hk] at h
      · simp [lookupLedger, hk] at h ⊢
        exact ih h

/-- Appending a binding for another key leaves a lookup unchanged. -/
theorem lookupLedger_append_other (L : Ledger) (p q : String)
    (ns : List String) (h : q ≠ p) :
    lookupLedger (L ++ [(p, ns)]) q = lookupLedger L q := by
  induction L with
  | nil => simp [lookupLedger, Ne.symm h]
  | cons e rest ih =>
      obtain ⟨k, ms⟩ := e
      by_cases hq : k = q <;> simp [lookupLedger, hq, ih]

/-- `array[i] = x` never changes the array's length. -/
theorem jsSetAt_length (l : List String) (i : Int) (x : String) :
    (jsSetAt l i x).length = l.length := by
  simp only [jsSetAt]
  split <;> simp

/-- `indexOf` of a member is a valid index. -/
theorem jsIndexOf_mem_bounds (l : List String) (x : String) (h : x ∈ l) :
    0 ≤ jsIndexOf l x ∧ jsIndexOf l x < (l.length : Int) := by
  induction l with
  | nil => simp at h
  | cons a rest ih =>
      by_cases ha : a = x
      · simp [jsIndexOf, ha]
      · have hr : x ∈ rest := by
          rcases List.mem_cons.mp h with h1 | h1
          · exact absurd h1.symm ha
          · exact h1
        obtain ⟨h0, hlt⟩ := ih hr
        have hne : jsIndexOf rest x ≠ -1 := by omega
        simp only [jsIndexOf, ha, if_false, hne, if_neg hne]
        constructor
        · omega
        · simp only [List.length_cons]
          push_cast
          omega

/-- Setting an in-range position makes the written value a member. -/
theorem mem_set_of_lt (l : List String) (k : ℕ) (x : String)
    (hk : k < l.length) : x ∈ l.set k x := by
  induction l generalizing k with
  | nil => simp at hk
  | cons a rest ih =>
      cases k with
      | zero => simp
      | succ k =>
          simp only [List.set_cons_succ, List.mem_cons]
          exact Or.inr (ih k (by simpa using hk))

/-- Overwriting the slot `indexOf(old)` of a list containing `old` makes
the new name a member. -/
theorem mem_jsSetAt_indexOf (l : List String) (old new : String)
    (h : old ∈ l) : new ∈ jsSetAt l (jsIndexOf l old) new := by
  obtain ⟨h0, hlt⟩ := jsIndexOf_mem_bounds l old h
  rw [jsSetAt, if_pos ⟨h0, hlt⟩]
  apply mem_set_of_lt
  omega

/-- For keys other than the one an operation touches, the intermediate
ledger `L1` of `duplicateModel` looks up like `L`. -/
theorem lookupLedger_dup_base (L : Ledger) (p q : String) (h : q ≠ p) :
    lookupLedger (if checkIfModelHasDuplicates L p then L else L ++ [(p, [])]) q
      = lookupLedger L q := by
  split
  · rfl
  · exact lookupLedger_append_other L p q [] h

/-- Every single ledger mutation performed by the lifecycle methods
preserves `LedgerNonempty`. -/
theorem ledgerStep_preserves_nonempty (L : Ledger) (op : LedgerOp)
    (hL : LedgerNonempty L) : LedgerNonempty (ledgerStep L op) := by
  cases op with
  | dup p n =>
      intro q ns hq
      simp only [ledgerStep, duplicateModel] at hq
      by_cases hpq : q = p
      · subst hpq
        rw [lookupLedger_setLedger_self] at hq
        rcases hx : lookupLedger
            (if checkIfModelHasDuplicates L q then L else L ++ [(q, [])]) q with _ | ms
        · rw [hx] at hq
          simp at hq
        · rw [hx] at hq
          simp at hq
          subst hq
          simp
      · rw [lookupLedger_setLedger_other _ _ _ _ hpq,
          lookupLedger_dup_base L p q hpq] at hq
        exact hL q ns hq
  | ren p o n =>
      intro q ns hq
      simp only [ledgerStep, renameModel] at hq
      by_cases hc : checkIfModelHasDuplicates L p
      · rw [if_pos hc] at hq
        by_cases hpq : q = p
        · subst hpq
          rw [lookupLedger_setLedger_self] at hq
          rcases hx : lookupLedger L q with _ | ms
          · rw [hx] at hq
            simp at hq
          · rw [hx] at hq
            simp at hq
            subst hq
            have hms : ms ≠ [] := hL q ms hx
            have hlen : (jsSetAt ms (jsIndexOf ms o) n).length = ms.length :=
              jsSetAt_length ms _ n
            intro hnil
            rw [hnil] at hlen
            simp at hlen
            exact hms (List.length_eq_zero.mp hlen.symm)
        · rw [lookupLedger_setLedger_other _ _ _ _ hpq] at hq
          exact hL q ns hq
      · rw [if_neg hc] at hq
        exact hL q ns hq
  | del p n =>
      intro q ns hq
      simp only [ledgerStep, deleteModel] at hq
      by_cases hc : checkIfModelHasDuplicates L p
      · rw [if_pos hc] at hq
        set ns0 := (lookupLedger L p).getD [] with hns0
        by_cases hlen : (jsSpliceOne ns0 (jsIndexOf ns0 n)).length > 0
        · rw [if_pos hlen] at hq
          simp only at hq
          by_cases hpq : q = p
          · subst hpq
            rw [lookupLedger_setLedger_self] at hq
            rcases hx : lookupLedger L q with _ | ms
            · rw [hx] at hq
              simp at hq
            · rw [hx] at hq
              simp at hq
              subst hq
              intro hnil
              rw [hnil] at hlen
              simp at hlen
          · rw [lookupLedger_setLedger_other _ _ _ _ hpq] at hq
            exact hL q ns hq
        · rw [if_neg hlen] at hq
          simp only at hq
          by_cases hpq : q = p
          · subst hpq
            rw [lookupLedger_removeLedgerKey_self] at hq
            simp at hq
          · rw [lookupLedger_removeLedgerKey_other _ _ _ hpq] at hq
            exact hL q ns hq
      · rw [if_neg hc] at hq
        exact hL q ns hq

/-- Folding lifecycle ledger mutations preserves `LedgerNonempty`. -/
theorem foldl_preserves_nonempty (ops : List LedgerOp) :
    ∀ L, LedgerNonempty L → LedgerNonempty (List.foldl ledgerStep L ops) := by
  induction ops with
  | nil => exact fun L h => h
  | cons op rest ih =>
      exact fun L h => ih _ (ledgerStep_preserves_nonempty L op h)

/-- A single non-`dup p` operation never creates a binding for `p`. -/
theorem ledgerStep_no_dup_none (L : Ledger) (op : LedgerOp) (p : String)
    (hL : lookupLedger L p = none) (hop : ∀ n, op ≠ LedgerOp.dup p n) :
    lookupLedger (ledgerStep L op) p = none := by
  cases op with
  | dup q n =>
      have hpq : p ≠ q := by
        intro hh
        exact hop n (by rw [hh])
      simp only [ledgerStep, duplicateModel]
      rw [lookupLedger_setLedger_other _ _ _ _ hpq,
        lookupLedger_dup_base L q p hpq]
      exact hL
  | ren q o n =>
      simp only [ledgerStep, renameModel]
      by_cases hc : checkIfModelHasDuplicates L q
      · rw [if_pos hc]
        by_cases hpq : p = q
        · subst hpq
          rw [checkIfModelHasDuplicates, hL] at hc
          simp at hc
        · rw [lookupLedger_setLedger_other _ _ _ _ hpq]
          exact hL
      · rw [if_neg hc]
        exact hL
  | del q n =>
      simp only [ledgerStep, deleteModel]
      by_cases hc : checkIfModelHasDuplicates L q
      · rw [if_pos hc]
        by_cases hpq : p = q
        · subst hpq
          rw [checkIfModelHasDuplicates, hL] at hc
          simp at hc
        · split
          · simp only
            rw [lookupLedger_setLedger_other _ _ _ _ hpq]
            exact hL
          · simp only
            rw [lookupLedger_removeLedgerKey_other _ _ _ hpq]
            exact hL
      · rw [if_neg hc]
        exact hL

/-- Folding operations none of which duplicates source `p` never creates
a binding for `p`. -/
theorem foldl_no_dup_none (p : String) :
    ∀ (ops : List LedgerOp) (L : Ledger), lookupLedger L p = none →
      (∀ n, LedgerOp.dup p n ∉ ops) →
      lookupLedger (List.foldl ledgerStep L ops) p = none
  | [], _, hL, _ => hL
  | op :: rest, L, hL, hops =>
      foldl_no_dup_none p rest (ledgerStep L op)
        (ledgerStep_no_dup_none L op p hL
          (fun n hn => hops n (hn ▸ List.mem_cons_self op rest)))
        (fun n hn => hops n (List.mem_cons_of_mem op hn))

/-- C3: (1) in every ledger state reachable through the lifecycle
operations, a key that is present is bound to a nonempty list of
registered names (so a source is tracked iff at least one registration —
a duplicate relationship — exists for it); (2) a source on which no
duplicate operation ever ran is never tracked; (3) `renameModel` of an
instance whose old name is registered under its source updates that
registration in place to the new name — the new name is registered and
the number of registrations is unchanged, so membership is never lost. -/
theorem ledger_invariant_and_rename :
    (∀ (ops : List LedgerOp) (p : String) (ns : List String),
        lookupLedger (applyLedgerOps ops) p = some ns → ns ≠ []) ∧
    (∀ (ops : List LedgerOp) (p : String),
        (∀ n, LedgerOp.dup p n ∉ ops) →
        lookupLedger (applyLedgerOps ops) p = none) ∧
    (∀ (p old new : String) (os : List ℕ) (L : Ledger) (ns : List String),
        lookupLedger L p = some ns → old ∈ ns →
        lookupLedger ((renameModel ⟨old, p, os⟩ L new).2) p =
            some (jsSetAt ns (jsIndexOf ns old) new) ∧
        new ∈ jsSetAt ns (jsIndexOf ns old) new ∧
        (jsSetAt ns (jsIndexOf ns old) new).length = ns.length) := by
  refine ⟨?_, ?_, ?_⟩
  · intro ops p ns h
    exact foldl_preserves_nonempty ops []
      (fun q ms hq => by simp [lookupLedger] at hq) p ns h
  · intro ops p h
    exact foldl_no_dup_none p ops [] rfl h
  · intro p old new os L ns h hm
    have hc : checkIfModelHasDuplicates L p = true := by
      simp [checkIfModelHasDuplicates, h]
    refine ⟨?_, mem_jsSetAt_indexOf ns old new hm, jsSetAt_length ns _ new⟩
    simp only [renameModel, hc, if_true, h]
    rw [lookupLedger_setLedger_self, h]
    simp

/-- Witness for `ledger_invariant_and_rename`: part 1 at the trace that
duplicates `"A"` of source `"p"`; part 2 at the trace that only touches
source `"q"`; part 3 at the rename of `"A"` to `"B"` under source
`"p"`. -/
theorem ledger_invariant_and_rename_witness :
    (lookupLedger (applyLedgerOps [LedgerOp.dup "p" "A"]) "p" = some ["A", "A"] ∧
      (["A", "A"] : List String) ≠ []) ∧
    ((∀ n, LedgerOp.dup "p" n ∉ [LedgerOp.dup "q" "A"]) ∧
      lookupLedger (applyLedgerOps [LedgerOp.dup "q" "A"]) "p" = none) ∧
    (lookupLedger [("p", ["A", "A"])] "p" = some ["A", "A"] ∧
      "A" ∈ (["A", "A"] : List String) ∧
      lookupLedger ((renameModel ⟨"A", "p", ([] : List ℕ)⟩ [("p", ["A", "A"])] "B").2) "p"
          = some (jsSetAt ["A", "A"] (jsIndexOf ["A", "A"] "A") "B") ∧
      "B" ∈ jsSetAt ["A", "A"] (jsIndexOf ["A", "A"] "A") "B" ∧
      (jsSetAt ["A", "A"] (jsIndexOf ["A", "A"] "A") "B").length
          = (["A", "A"] : List String).length) := by
  have hnodup : ∀ n, LedgerOp.dup "p" n ∉ [LedgerOp.dup "q" "A"] := by
    intro n hn
    rw [List.mem_singleton] at hn
    have : "p" = "q" := (LedgerOp.dup.injEq _ _ _ _).mp hn |>.1
    exact absurd this (by decide)
  refine ⟨⟨by decide, ledger_invariant_and_rename.1 [LedgerOp.dup "p" "A"] "p" ["A", "A"] (by decide)⟩,
    ⟨hnodup, ledger_invariant_and_rename.2.1 [LedgerOp.dup "q" "A"] "p" hnodup⟩,
    ⟨by decide, by decide,
      ledger_invariant_and_rename.2.2 "p" "A" "B" [] [("p", ["A", "A"])] ["A", "A"]
        (by decide) (by decide)⟩⟩

/-- Witness for `double_dispose_noop_when_untracked`: a never-duplicated
model `"A"` with source `"p"` and object `0` against the empty ledger. -/
theorem double_dispose_noop_when_untracked_witness :
    lookupLedger [] "p" = none ∧
    (let d1 := deleteModel ⟨"A", "p", [0]⟩ [] []
     let d2 := deleteModel d1.1 d1.2.1 d1.2.2
     d1.1.objects = [] ∧ d1.2.1 = [] ∧ d1.2.2 = [] ++ [0] ∧
     d2.1 = d1.1 ∧ d2.2.1 = d1.2.1 ∧ d2.2.2 = d1.2.2) :=
  ⟨rfl, double_dispose_noop_when_untracked "A" "p" [0] [] [] rfl⟩

/-- C5: the normal-generation pass over an unindexed vertex stream.  For
the single triangle `(0,0,0),(1,0,0),(0,1,0)` all three output vertex
normals are the normalized edge cross product `(0,0,1)`.  For the
two-triangle stream that appends `(0,0,0),(1,0,0),(0,-1,0)` — whose face
normal is `(0,0,-1)` — the vertices `(0,0,0)` and `(1,0,0)`, matched by
exact position value across the two triangles, accumulate
`(0,0,1) + (0,0,-1) = (0,0,0)` (re-normalized by the guarded
`normalize`, still zero), while the unshared vertices keep their single
face normal: accumulation is keyed on the position tuple, not on the
index. -/
theorem calculateNormals_triangle_and_accumulation :
    calculateNormals [0, 0, 0, 1, 0, 0, 0, 1, 0] = [0, 0, 1, 0, 0, 1, 0, 0, 1] ∧
    calculateNormals
        [0, 0, 0, 1, 0, 0, 0, 1, 0,
         0, 0, 0, 1, 0, 0, 0, -1, 0] =
      [0, 0, 0, 0, 0, 0, 0, 0, 1,
       0, 0, 0, 0, 0, 0, 0, 0, -1] := by
  constructor <;>
    norm_num [calculateNormals, trianglesOf, buildMapping, processTriangle,
      addVertexEntry, calculateNormal, Vec4.subtract, Vec4.crossProduct,
      Vec4.normalize, Vec4.length, Vec4.add, writeNormals, writeIndexes,
      List.foldl, List.replicate, List.set, Prod.mk.injEq,
      Real.sqrt_one, Real.sqrt_zero]
